import Mathlib

/-
Shallow embedding of the whatsapp-booking-bot repository.

Time instants are modelled as natural numbers counting minutes since an
epoch that falls on a Monday at 00:00, so the weekday of an instant t is
(t / 1440) % 7 with 0 = Monday and 6 = Sunday, and the time of day is
t % 1440.  All collaborator state (the Google calendar, the sqlite store,
the per-user session dictionaries) is modelled as explicit values threaded
through the step functions.  Collaborator failures (network errors raised
by the Google client) are modelled by boolean flags in an oracle record:
a failed call leaves the collaborator state unchanged and the handler
takes its except-branch, exactly as in the source.
-/

namespace BookingPy

/- booking.py: SERVICES maps a service name to (price, duration_min). -/
def SERVICES : List (String × Nat × Nat) :=
  [("haircut", 12, 30), ("skin fade", 15, 45), ("beard", 8, 20)]

/- Duration in minutes of a catalog service (booking.py SERVICES). -/
def durationMin (service : String) : Option Nat :=
  (List.lookup service SERVICES).map Prod.snd

/- Half-open interval overlap rule used by the spec: a.start < b.end AND
b.start < a.end. -/
def intervalsOverlap (s1 e1 s2 e2 : Nat) : Bool :=
  decide (s1 < e2) && decide (s2 < e1)

/- Python str.lower, modelled on the ASCII letters that appear in the
day names and service names of this repository (String.toLower of the
library does not evaluate inside the kernel). -/
def pyLowerChar (c : Char) : Char :=
  if 65 ≤ c.toNat && c.toNat ≤ 90 then Char.ofNat (c.toNat + 32) else c

def pyLower (s : String) : String := String.mk (s.toList.map pyLowerChar)

/- booking.py DAY_MAP. -/
def DAY_MAP : List (String × String) :=
  [("monday", "mon"), ("mon", "mon"),
   ("tuesday", "tue"), ("tue", "tue"),
   ("wednesday", "wed"), ("wed", "wed"),
   ("thursday", "thu"), ("thu", "thu"),
   ("friday", "fri"), ("fri", "fri"),
   ("saturday", "sat"), ("sat", "sat"),
   ("sunday", "sun"), ("sun", "sun")]

/- booking.py SHOP open_hours: day key to (open hour, close hour), 24h clock. -/
def open_hours : List (String × (Nat × Nat)) :=
  [("mon", (10, 19)), ("tue", (10, 19)), ("wed", (10, 19)), ("thu", (10, 19)),
   ("fri", (10, 20)), ("sat", (9, 18)), ("sun", (11, 17))]

/- booking.py opening_hours_for: DAY_MAP lookup of the lowercased name, then
of its first three characters, then SHOP open_hours lookup. -/
def opening_hours_for (day_name : String) : Option (Nat × Nat) :=
  let t := pyLower day_name
  let key :=
    match List.lookup t DAY_MAP with
    | some k => some k
    | none => List.lookup (String.mk (t.toList.take 3)) DAY_MAP
  match key with
  | some k => List.lookup k open_hours
  | none => none

/- Value of int(hhmm.split(":")[0]) for a digits-then-colon string. -/
def hourOf (hhmm : String) : Nat :=
  (hhmm.toList.takeWhile (fun c => !(c == ':'))).foldl
    (fun acc c => acc * 10 + (c.toNat - 48)) 0

/- booking.py is_time_in_opening: only the HOUR of the start is compared
against the open and close hours; minutes and duration are ignored. -/
def is_time_in_opening (day_name : String) (hhmm : String) : Bool :=
  match opening_hours_for day_name with
  | none => false
  | some (o, c) =>
    let h := hourOf hhmm
    decide (o ≤ h) && decide (h < c)

/- The while-loop of booking.py suggest_slots, with explicit fuel; the
source loop terminates for step_min >= 1 (with step_min = 0 the python loop
diverges, the fuel variant instead stops), and fuel = stop is enough since
each iteration advances t by at least 1. -/
def slot_loop (stop step : Nat) : Nat → Nat → List Nat
  | 0, _ => []
  | fuel + 1, t => if t < stop then t :: slot_loop stop step fuel (t + step) else []

/- Minute values produced by booking.py suggest_slots before formatting. -/
def suggestSlotMinutes (day_name : String) (step_min : Nat) : List Nat :=
  match opening_hours_for day_name with
  | none => []
  | some (start_h, end_h) =>
    (slot_loop (end_h * 60) step_min (end_h * 60) (start_h * 60)).take 8

/- Character of a decimal digit. -/
def dch (d : Nat) : Char := Char.ofNat (48 + d)

/- Python f-string formatting of two zero-padded fields separated by a
colon, as in parse_time and in strftime of suggest_slots. -/
def fmtHHMM (h mi : Nat) : String :=
  String.mk [dch (h / 10), dch (h % 10), ':', dch (mi / 10), dch (mi % 10)]

/- strftime of a minutes-of-day value. -/
def minuteToHHMM (t : Nat) : String := fmtHHMM (t / 60) (t % 60)

/- booking.py suggest_slots: formatted slot strings, first 8 only. -/
def suggest_slots (day_name : String) (step_min : Nat) : List String :=
  (suggestSlotMinutes day_name step_min).map minuteToHHMM

/- ASCII whitespace stripped by python str.strip. -/
def isWS (c : Char) : Bool := c == ' ' || c == '\t' || c == '\n' || c == '\r'

/- text.strip().lower().replace(" ", "") of booking.py parse_time. -/
def normTime (s : String) : List Char :=
  ((((s.toList.dropWhile isWS).reverse.dropWhile isWS).reverse).map pyLowerChar).filter
    (fun c => !(c == ' '))

/- Numeric value of a digit character. -/
def digitVal (c : Char) : Nat := c.toNat - 48

/- Terminal (am|pm)$ alternative of the first parse_time regex. -/
def readAmPm : List Char → Option Bool
  | ['a', 'm'] => some false
  | ['p', 'm'] => some true
  | _ => none

/- The (?::(\d{2}))?(am|pm)$ tail of the first parse_time regex; a missing
minutes group defaults to 0 as in int(m.group(2) or "00"). -/
def readMinAmPm : List Char → Option (Nat × Bool)
  | ':' :: d1 :: d2 :: rest =>
    if d1.isDigit && d2.isDigit then
      (readAmPm rest).map (fun pm => (digitVal d1 * 10 + digitVal d2, pm))
    else none
  | l => (readAmPm l).map (fun pm => (0, pm))

/- The :(\d{2})$ tail of the second parse_time regex. -/
def readColonMin : List Char → Option Nat
  | [':', d1, d2] =>
    if d1.isDigit && d2.isDigit then some (digitVal d1 * 10 + digitVal d2) else none
  | _ => none

/- The greedy-with-backtracking (\d{1,2}) prefix of both parse_time
regexes, continued by the given tail matcher. -/
def readHourThen {α : Type} (k : List Char → Option α) : List Char → Option (Nat × α)
  | [] => none
  | [c] => if c.isDigit then (k []).map (fun a => (digitVal c, a)) else none
  | c1 :: c2 :: rest =>
    if c1.isDigit then
      if c2.isDigit then
        match k rest with
        | some a => some (digitVal c1 * 10 + digitVal c2, a)
        | none =>
          match k (c2 :: rest) with
          | some a => some (digitVal c1, a)
          | none => none
      else
        match k (c2 :: rest) with
        | some a => some (digitVal c1, a)
        | none => none
    else none

/- The am/pm hour adjustment of booking.py parse_time: if h == 12 then
h = 0, then if pm then h += 12. -/
def ampm_hour (h : Nat) (pm : Bool) : Nat :=
  let h1 := if h == 12 then 0 else h
  if pm then h1 + 12 else h1

/- booking.py parse_time.  The source tries the am/pm regex first and, on
a match, returns the formatted value or None without falling through to
the 24h regex; only a non-match falls through. -/
def parse_time (text : String) : Option String :=
  let t := normTime text
  match readHourThen readMinAmPm t with
  | some (h, mipm) =>
    let hh := ampm_hour h mipm.2
    if decide (hh ≤ 23) && decide (mipm.1 ≤ 59) then some (fmtHHMM hh mipm.1) else none
  | none =>
    match readHourThen readColonMin t with
    | some (h, mi) =>
      if decide (h ≤ 23) && decide (mi ≤ 59) then some (fmtHHMM h mi) else none
    | none => none

end BookingPy

namespace Agent

/- ai_agent.py: the in-memory appointment store is a dict keyed by
slot_key(dt) = the exact start minute; the value records who booked and
which service.  The string key "YYYY-MM-DD HH:MM" is injective on minute
instants, so the key is modelled as the instant itself. -/
structure AgentBooking where
  phone : String
  service : String
deriving DecidableEq

/- Per-user entry of ai_agent.py user_state. -/
structure UState where
  pending : Option (String × Nat)
  chosen_service : Option String
deriving DecidableEq

/- The two module-level dicts of ai_agent.py. -/
structure AgentState where
  appointments : List (Nat × AgentBooking)
  user_state : List (String × UState)
deriving DecidableEq

/- ai_agent.py is_slot_taken: exact key membership, no interval test. -/
def is_slot_taken (apps : List (Nat × AgentBooking)) (dt : Nat) : Bool :=
  apps.any (fun kv => kv.1 == dt)

/- Read a user entry, defaulting to the fresh empty dict the webhook
inserts for unknown numbers. -/
def getU (us : List (String × UState)) (phone : String) : UState :=
  (List.lookup phone us).getD ⟨none, none⟩

/- Dict update of user_state[phone]. -/
def setU (us : List (String × UState)) (phone : String) (u : UState) :
    List (String × UState) :=
  (phone, u) :: us.filter (fun kv => !(kv.1 == phone))

/- Inbound message after the regex extraction phase of ai_agent.py:
a confirmation word, a bare menu service word, a booking-style message
(with the pieces parse_service, parse_date, parse_time recognised, plus
whether a weekday word occurred, which drives the past-date bump), or
anything else.  A date is a day index (midnight instant day * 1440). -/
inductive AgentInput
| confirm
| menuService (svc : String)
| bookMsg (service : Option String) (date : Option Nat) (tm : Option (Nat × Nat))
    (usedWeekday : Bool)
| other

/- Branch 3 tail of the webhook: with a resolved service and instant in
hand, reject if the slot key is taken (state unchanged), else store the
pending confirmation. -/
def agentOffer (st : AgentState) (phone : String) (u : UState) (svc : String)
    (dt : Nat) : AgentState :=
  if is_slot_taken st.appointments dt then st
  else { st with user_state := setU st.user_state phone { u with pending := some (svc, dt) } }

/- One call of ai_agent.py whatsapp_webhook, reply text omitted. -/
def agentStep (now : Nat) (st : AgentState) (phone : String) (inp : AgentInput) :
    AgentState :=
  let u := getU st.user_state phone
  match inp with
  | .confirm =>
    match u.pending with
    | none => st
    | some (svc, dt) =>
      if is_slot_taken st.appointments dt then
        { st with user_state := setU st.user_state phone { u with pending := none } }
      else
        { appointments := (dt, ⟨phone, svc⟩) :: st.appointments,
          user_state := setU st.user_state phone { u with pending := none } }
  | .menuService svc =>
    { st with user_state := setU st.user_state phone { u with chosen_service := some svc } }
  | .bookMsg svcO dateO tmO usedWd =>
    match svcO, dateO, tmO with
    | none, none, none => st
    | some svc, some date, some (hh, mm) =>
      let dt0 := date * 1440 + hh * 60 + mm
      let dt := if decide (dt0 < now) && usedWd then dt0 + 7 * 1440 else dt0
      agentOffer st phone u svc dt
    | svcO, dateO, tmO =>
      let svcK := match svcO with
                  | some s => some s
                  | none => u.chosen_service
      match svcK, dateO, tmO with
      | some svc, some date, some (hh, mm) =>
        agentOffer st phone u svc (date * 1440 + hh * 60 + mm)
      | _, _, _ => st
  | .other => st

/- Reachable states of the ai_agent.py store, from empty dicts. -/
inductive AgentReachable : AgentState → Prop
| init : AgentReachable ⟨[], []⟩
| step (now : Nat) (phone : String) (inp : AgentInput) {st : AgentState} :
    AgentReachable st → AgentReachable (agentStep now st phone inp)

/- A concrete four-message run of the webhook from the empty store: book
a skin fade on day 0 at 17:00 and confirm it, then book a haircut on the
same day at 17:30 and confirm it. -/
def overlapRun : AgentState :=
  agentStep 0
    (agentStep 0
      (agentStep 0
        (agentStep 0 ⟨[], []⟩ "p" (.bookMsg (some "skin fade") (some 0) (some (17, 0)) false))
        "p" .confirm)
      "p" (.bookMsg (some "haircut") (some 0) (some (17, 30)) false))
    "p" .confirm

end Agent

namespace CalHelper

/- calendar_helper.py: a Google calendar event created by this bot.  The
phone number lives in the event description in the source; stop models the
end instant, a Lean keyword. -/
structure Event where
  id : Nat
  summary : String
  phone : String
  start : Nat
  stop : Nat
deriving DecidableEq, Inhabited

/- calendar_helper.py is_time_available: the events().list call returns
the events intersecting the half-open query window, and the slot is
available exactly when that list is empty. -/
def is_time_available (cal : List Event) (s e : Nat) : Bool :=
  cal.all (fun b => !(decide (b.start < e) && decide (s < b.stop)))

/- The scan loop of calendar_helper.py next_available_slots, with explicit
fuel; the source loop terminates for step >= 1 and the fuel passed by
next_available_slots is enough in that case. -/
def slotScanAux (cal : List Event) (minutes step limit endSearch : Nat) :
    Nat → Nat → List Nat → List Nat
  | 0, _, found => found
  | fuel + 1, current, found =>
    if decide (current < endSearch) && decide (found.length < limit) then
      let found2 :=
        if is_time_available cal current (current + minutes) then found ++ [current]
        else found
      slotScanAux cal minutes step limit endSearch fuel (current + step) found2
    else found

/- calendar_helper.py next_available_slots: scan from from_dt (no
rounding) in steps of step_minutes over a 14-day window, collecting
starts whose event-list query comes back empty, up to limit.  Opening
hours are never consulted. -/
def next_available_slots (cal : List Event) (minutes from_dt step_minutes limit : Nat) :
    List Nat :=
  slotScanAux cal minutes step_minutes limit (from_dt + 14 * 1440) (14 * 1440 + 1)
    from_dt []

/- calendar_helper.py create_booking_event; the event id is produced by
Google and is passed in from the oracle. -/
def create_booking_event (cal : List Event) (id start_dt minutes : Nat)
    (service_name user_phone : String) : List Event :=
  cal ++ [{ id := id, summary := service_name, phone := user_phone,
            start := start_dt, stop := start_dt + minutes }]

/- calendar_helper.py delete_booking_event. -/
def delete_booking_event (cal : List Event) (event_id : Nat) : List Event :=
  cal.filter (fun e => !(e.id == event_id))

/- calendar_helper.py update_booking_time: a single events().update call
that moves the event with the given id to the new window in place; no
separate delete and create are issued. -/
def update_booking_time (cal : List Event) (event_id new_start minutes : Nat) :
    List Event :=
  cal.map (fun e =>
    if e.id == event_id then { e with start := new_start, stop := new_start + minutes }
    else e)

/- Insertion sort by start, modelling the orderBy="startTime" of the
events().list call. -/
def insertByStart (e : Event) : List Event → List Event
  | [] => [e]
  | x :: xs => if decide (e.start ≤ x.start) then e :: x :: xs else x :: insertByStart e xs

def sortByStart : List Event → List Event
  | [] => []
  | x :: xs => insertByStart x (sortByStart xs)

/- calendar_helper.py list_user_bookings: upcoming events whose
description matches the phone, sorted by start, first limit entries. -/
def list_user_bookings (cal : List Event) (now : Nat) (user_phone : String)
    (limit : Nat) : List Event :=
  (sortByStart (cal.filter (fun e => e.phone == user_phone && decide (now ≤ e.start)))).take
    limit

end CalHelper

namespace WB

open CalHelper

/- WhatsApp_bot.py SERVICES entry: (name, price, minutes, category, aliases). -/
structure Svc where
  name : String
  price : Nat
  mins : Nat
  cat : String
  aliases : List String
deriving DecidableEq, Inhabited

/- WhatsApp_bot.py SERVICES. -/
def SERVICES : List Svc :=
  [⟨"Haircut", 18, 45, "Men’s Cuts", ["haircut", "hair cut", "cut"]⟩,
   ⟨"Skin Fade", 22, 60, "Men’s Cuts", ["skin fade", "fade", "skinfade"]⟩,
   ⟨"Shape Up", 12, 20, "Men’s Cuts", ["shape up", "shapeup", "line up", "lineup"]⟩,
   ⟨"Beard Trim", 10, 20, "Beard Trimming", ["beard", "beard trim"]⟩,
   ⟨"Hot Towel Shave", 25, 40, "Hot Towel Shaves", ["hot towel", "hot towel shave", "shave"]⟩,
   ⟨"Blow Dry", 20, 30, "Blow Dry", ["blow dry", "blowdry"]⟩,
   ⟨"Boy\x27s Cut", 15, 40, "Boy’s Cuts", ["boys cut", "boy cut", "boys haircut"]⟩,
   ⟨"Children’s Cut", 15, 40, "Children’s Cuts", ["childrens cut", "children cut", "kids cut", "kid cut"]⟩,
   ⟨"Ear Waxing", 8, 10, "Waxing", ["ear wax", "ear waxing"]⟩,
   ⟨"Nose Waxing", 8, 10, "Waxing", ["nose wax", "nose waxing"]⟩,
   ⟨"Eyebrow Trim", 6, 10, "Grooming", ["eyebrow", "brows", "eyebrow trim"]⟩,
   ⟨"Wedding Package", 80, 90, "Packages", ["wedding", "wedding package"]⟩]

def SLOT_STEP_MINUTES : Nat := 15

def OPEN_TIME : Nat := 9 * 60

def CLOSE_TIME : Nat := 18 * 60

/- WhatsApp_bot.py within_opening: day of week in OPEN_DAYS (Sunday, day
index 6 from the Monday epoch, is the only closed day) and OPEN_TIME <=
time of day < CLOSE_TIME.  Only the START of the appointment is tested;
the duration plays no role. -/
def within_opening (t : Nat) : Bool :=
  decide ((t / 1440) % 7 ≠ 6) && decide (OPEN_TIME ≤ t % 1440)
    && decide (t % 1440 < CLOSE_TIME)

/- WhatsApp_bot.py session step values. -/
inductive Step
| idle
| await_time
| offer_slots
| cancel_pick
| resched_pick
| resched_time
deriving DecidableEq

/- WhatsApp_bot.py resched_event entry. -/
structure Resched where
  id : Nat
  service : String
  minutes : Nat
deriving DecidableEq

/- WhatsApp_bot.py per-number STATE entry. -/
structure Session where
  step : Step
  service : Option Svc
  offered_slots : Option (List Nat)
  pending_bookings : Option (List Event)
  resched_event : Option Resched
deriving DecidableEq

/- The fresh session written by WhatsApp_bot.py reset. -/
def initSession : Session := ⟨.idle, none, none, none, none⟩

/- Outcome flags for the collaborator calls a single webhook invocation
may make: whether list_user_bookings, create_booking_event,
delete_booking_event, update_booking_time raise, and the id Google
assigns to a created event. -/
structure Ora where
  listFail : Bool
  createFail : Bool
  deleteFail : Bool
  updateFail : Bool
  newId : Nat
deriving DecidableEq

/- Inbound message after text normalisation, as the WhatsApp_bot.py
handler distinguishes bodies: the global command words, a digit-only
body, a body parse_dt resolves to an instant, a body parse_service
recognises (possibly together with an instant), or anything else.  The
constructors partition the possible bodies, mirroring the if-chain order
of the handler; a digit-only body on which the source would call
parse_dt is modelled as not parsing (dateparser behaviour on bare digits
is environment dependent and no claim depends on it). -/
inductive Msg
| menu
| help
| greeting
| thanks
| back
| myBookings
| cancelCmd
| rescheduleCmd
| number (n : Nat)
| datetime (t : Nat)
| serviceOnly (svc : Svc)
| serviceWithTime (svc : Svc) (t : Nat)
| unparsed
deriving DecidableEq

/- The idle-branch direct booking block of WhatsApp_bot.py (service and
instant both recognised in one message). -/
def idleBook (phone : String) (ora : Ora) (cal : List Event) (s : Session)
    (svc : Svc) (t : Nat) : Session × List Event :=
  if within_opening t then
    let minutes := svc.mins
    let e := t + minutes
    if is_time_available cal t e then
      if ora.createFail then (initSession, cal)
      else (initSession, create_booking_event cal ora.newId t minutes svc.name phone)
    else
      let offered := next_available_slots cal minutes (t + SLOT_STEP_MINUTES)
        SLOT_STEP_MINUTES 3
      ({ s with step := .offer_slots, service := some svc,
                offered_slots := some offered }, cal)
  else (s, cal)

/- The await_time booking block of WhatsApp_bot.py (service already in
the session). -/
def awaitTimeBook (phone : String) (ora : Ora) (cal : List Event) (s : Session)
    (svc : Svc) (t : Nat) : Session × List Event :=
  if within_opening t then
    let minutes := svc.mins
    let e := t + minutes
    if is_time_available cal t e then
      if ora.createFail then (initSession, cal)
      else (initSession, create_booking_event cal ora.newId t minutes svc.name phone)
    else
      let offered := next_available_slots cal minutes (t + SLOT_STEP_MINUTES)
        SLOT_STEP_MINUTES 3
      ({ s with step := .offer_slots, offered_slots := some offered }, cal)
  else (s, cal)

/- The offer_slots booking block of WhatsApp_bot.py: a chosen instant is
re-validated against opening hours and current availability; a conflict
only reprompts. -/
def offerBook (phone : String) (ora : Ora) (cal : List Event) (s : Session)
    (t : Nat) : Session × List Event :=
  if within_opening t then
    let minutes := match s.service with
                   | some svc => svc.mins
                   | none => 45
    let e := t + minutes
    if is_time_available cal t e then
      if ora.createFail then (initSession, cal)
      else
        (initSession, create_booking_event cal ora.newId t minutes
          (match s.service with
           | some svc => svc.name
           | none => "Booking") phone)
    else (s, cal)
  else (s, cal)

/- The resched_time block of WhatsApp_bot.py: re-validate the new window,
offer alternatives on conflict (a state change only when alternatives
exist), otherwise issue the single update call; a raised update (or a
missing resched_event id) resets the session, leaving the calendar as the
failed call left it. -/
def reschedBook (phone : String) (ora : Ora) (cal : List Event) (s : Session)
    (t : Nat) : Session × List Event :=
  if within_opening t then
    let minutes := match s.resched_event with
                   | some r => r.minutes
                   | none => 45
    let e := t + minutes
    if is_time_available cal t e then
      match s.resched_event with
      | some r =>
        if ora.updateFail then (initSession, cal)
        else (initSession, update_booking_time cal r.id t minutes)
      | none => (initSession, cal)
    else
      let offered := next_available_slots cal minutes (t + SLOT_STEP_MINUTES)
        SLOT_STEP_MINUTES 3
      if offered.isEmpty then (s, cal)
      else
        ({ s with step := .offer_slots, offered_slots := some offered,
                  service := some ⟨(match s.resched_event with
                                    | some r => r.service
                                    | none => ""), 0, minutes, "", []⟩ }, cal)
  else (s, cal)

/- One call of the WhatsApp_bot.py whatsapp handler for one number, reply
text omitted.  Branches appear in source order; the cancel_pick test
precedes the reschedule command test in the source, which is why a
reschedule command inside cancel_pick only reprompts. -/
def handle (phone : String) (now : Nat) (ora : Ora) (cal : List Event)
    (s : Session) (m : Msg) : Session × List Event :=
  match m with
  | .menu => (initSession, cal)
  | .help => (s, cal)
  | .greeting => (s, cal)
  | .thanks => (s, cal)
  | .back => (initSession, cal)
  | .myBookings => (initSession, cal)
  | .cancelCmd =>
    if ora.listFail then (s, cal)
    else
      let bookings := list_user_bookings cal now phone 10
      if bookings.isEmpty then (s, cal)
      else ({ s with step := .cancel_pick, pending_bookings := some bookings }, cal)
  | .rescheduleCmd =>
    if s.step == .cancel_pick then (s, cal)
    else if ora.listFail then (s, cal)
    else
      let bookings := list_user_bookings cal now phone 10
      if bookings.isEmpty then (s, cal)
      else ({ s with step := .resched_pick, pending_bookings := some bookings }, cal)
  | .number n =>
    match s.step with
    | .cancel_pick =>
      let bookings := s.pending_bookings.getD []
      if decide (1 ≤ n) && decide (n ≤ bookings.length) then
        let chosen := bookings.getD (n - 1) default
        if ora.deleteFail then (initSession, cal)
        else (initSession, delete_booking_event cal chosen.id)
      else (s, cal)
    | .resched_pick =>
      let bookings := s.pending_bookings.getD []
      if decide (1 ≤ n) && decide (n ≤ bookings.length) then
        let chosen := bookings.getD (n - 1) default
        let minutes := match SERVICES.find? (fun v => BookingPy.pyLower v.name == BookingPy.pyLower chosen.summary) with
                       | some v => v.mins
                       | none => 45
        ({ s with step := .resched_time,
                  resched_event := some ⟨chosen.id, chosen.summary, minutes⟩ }, cal)
      else (s, cal)
    | .resched_time => (s, cal)
    | .offer_slots =>
      if decide (1 ≤ n) && decide (n ≤ 3) then
        let offered := s.offered_slots.getD []
        if decide (n - 1 < offered.length) then
          offerBook phone ora cal s (offered.getD (n - 1) 0)
        else (s, cal)
      else (s, cal)
    | .await_time =>
      if s.service.isNone then (initSession, cal) else (s, cal)
    | .idle =>
      if decide (1 ≤ n) && decide (n ≤ SERVICES.length) then
        ({ s with step := .await_time, service := some (SERVICES.getD (n - 1) default) },
         cal)
      else (s, cal)
  | .datetime t =>
    match s.step with
    | .cancel_pick => (s, cal)
    | .resched_pick => (s, cal)
    | .resched_time => reschedBook phone ora cal s t
    | .offer_slots => offerBook phone ora cal s t
    | .await_time =>
      match s.service with
      | none => (initSession, cal)
      | some svc => awaitTimeBook phone ora cal s svc t
    | .idle => (s, cal)
  | .serviceOnly svc =>
    match s.step with
    | .idle => ({ s with step := .await_time, service := some svc }, cal)
    | .await_time => if s.service.isNone then (initSession, cal) else (s, cal)
    | _ => (s, cal)
  | .serviceWithTime svc t =>
    match s.step with
    | .idle => idleBook phone ora cal s svc t
    | .await_time => if s.service.isNone then (initSession, cal) else (s, cal)
    | _ => (s, cal)
  | .unparsed =>
    match s.step with
    | .await_time => if s.service.isNone then (initSession, cal) else (s, cal)
    | _ => (s, cal)

end WB

/- ------------------------------------------------------------------ -/
/- Theorems -/
/- ------------------------------------------------------------------ -/

namespace CalHelper

/- Every slot accumulated by the scan loop passed the busy-interval query
of the pre-call calendar. -/
theorem slotScanAux_avail (cal : List Event) (minutes step limit endSearch : Nat) :
    ∀ (fuel current : Nat) (found : List Nat),
      (∀ x ∈ found, is_time_available cal x (x + minutes) = true) →
      ∀ x ∈ slotScanAux cal minutes step limit endSearch fuel current found,
        is_time_available cal x (x + minutes) = true := by
  intro fuel
  induction fuel with
  | zero =>
    intro current found h x hx
    simp only [slotScanAux] at hx
    exact h x hx
  | succ n ih =>
    intro current found h x hx
    simp only [slotScanAux] at hx
    split at hx
    · by_cases hav : is_time_available cal current (current + minutes) = true
      · refine ih (current + step) _ ?_ x (by simpa [hav] using hx)
        intro y hy
        rcases List.mem_append.1 hy with hy1 | hy2
        · exact h y hy1
        · rcases List.mem_singleton.1 hy2 with rfl
          exact hav
      · exact ih (current + step) _ (by simpa [hav] using h) x (by simpa [hav] using hx)
    · exact h x hx

/- Every slot accumulated by the scan loop lies on the arithmetic grid
that starts at the initial cursor and advances by the step. -/
theorem slotScanAux_grid (cal : List Event) (minutes step limit endSearch after : Nat) :
    ∀ (fuel current : Nat) (found : List Nat),
      (∀ x ∈ found, after ≤ x ∧ (x - after) % step = 0) →
      after ≤ current → (current - after) % step = 0 →
      ∀ x ∈ slotScanAux cal minutes step limit endSearch fuel current found,
        after ≤ x ∧ (x - after) % step = 0 := by
  intro fuel
  induction fuel with
  | zero =>
    intro current found h _ _ x hx
    simp only [slotScanAux] at hx
    exact h x hx
  | succ n ih =>
    intro current found h hle hmod x hx
    simp only [slotScanAux] at hx
    split at hx
    · have hle2 : after ≤ current + step := le_trans hle (Nat.le_add_right _ _)
      have hmod2 : (current + step - after) % step = 0 := by
        rw [Nat.sub_add_comm hle, Nat.add_mod_right]
        exact hmod
      by_cases hav : is_time_available cal current (current + minutes) = true
      · refine ih (current + step) _ ?_ hle2 hmod2 x (by simpa [hav] using hx)
        intro y hy
        rcases List.mem_append.1 hy with hy1 | hy2
        · exact h y hy1
        · rcases List.mem_singleton.1 hy2 with rfl
          exact ⟨hle, hmod⟩
      · exact ih (current + step) _ (by simpa [hav] using h) hle2 hmod2 x
          (by simpa [hav] using hx)
    · exact h x hx

end CalHelper

/-- C4 (corrected): every instant returned by next_available_slots passes
the busy-interval part of the availability check against the calendar it
was generated from: no event of that calendar overlaps the half-open
window of length minutes starting at the instant.  This is the part of
CheckAvailable that the search actually runs; the opening-hours part is
not consulted (see the counterexample). -/
theorem C4_slots_busy_free (cal : List CalHelper.Event)
    (minutes from_dt step_minutes limit : Nat) :
    ∀ x ∈ CalHelper.next_available_slots cal minutes from_dt step_minutes limit,
      CalHelper.is_time_available cal x (x + minutes) = true := by
  intro x hx
  exact CalHelper.slotScanAux_avail cal minutes step_minutes limit _ _ _ []
    (by intro y hy; cases hy) x hx

/-- C4 witness: the instant 8820 is returned by a concrete search over the
empty calendar, and its window indeed passes the busy-interval check. -/
theorem C4_slots_busy_free_witness :
    CalHelper.is_time_available [] 8820 (8820 + 30) = true :=
  C4_slots_busy_free [] 30 8820 15 1 8820 (by decide)

/-- C4 counterexample: with an empty busy set and the search started on a
Sunday at 03:00 (minute 8820 of the Monday-epoch week), the very first
slot returned is Sunday 03:00 itself, which fails the opening-hours part
of the availability check (the shop is closed on Sunday and 03:00 is
before opening); hence a returned slot does NOT pass the full
CheckAvailable, refuting the claim as stated. -/
theorem C4_outside_hours_counterexample :
    CalHelper.next_available_slots [] 30 8820 15 1 = [8820]
      ∧ WB.within_opening 8820 = false := by
  constructor
  · decide
  · decide

/-- C7 (corrected): the scan of next_available_slots starts exactly at the
given from_dt with NO rounding: every examined (hence every returned)
candidate equals from_dt plus a multiple of step_minutes, and no candidate
is earlier than from_dt.  The ceiling-rounding to the next multiple of
step_minutes claimed by the spec does not happen (see the counterexample);
in the bot the cursor passed in is the requested instant plus one step,
again not a rounded value. -/
theorem C7_slots_on_step_grid (cal : List CalHelper.Event)
    (minutes from_dt step_minutes limit : Nat) (h : 1 ≤ step_minutes) :
    ∀ x ∈ CalHelper.next_available_slots cal minutes from_dt step_minutes limit,
      from_dt ≤ x ∧ (x - from_dt) % step_minutes = 0 := by
  intro x hx
  exact CalHelper.slotScanAux_grid cal minutes step_minutes limit _ from_dt _ _ []
    (by intro y hy; cases hy) (le_refl _) (by simp) x hx

/-- C7 witness: for a concrete search the returned slot 607 lies on the
grid anchored at from_dt = 607. -/
theorem C7_slots_on_step_grid_witness :
    607 ≤ 607 ∧ (607 - 607) % 15 = 0 :=
  C7_slots_on_step_grid [] 30 607 15 1 (by decide) 607 (by decide)

/-- C7 counterexample: with after = minute 607 (10:07) and step 15, the
first candidate examined and returned is 607 itself, which is not a
multiple of 15 and is strictly earlier than 615, the value of after
rounded up to the next multiple of the step; so the claimed ceiling
rounding does not happen. -/
theorem C7_no_rounding_counterexample :
    CalHelper.next_available_slots [] 30 607 15 1 = [607]
      ∧ ¬(607 % 15 = 0) ∧ 607 < 15 * ((607 + 14) / 15) := by
  refine ⟨by decide, by decide, by decide⟩

namespace WB

open CalHelper

/- A failed create call leaves the calendar untouched in the idle direct
booking block. -/
theorem idleBook_cal_of_fail (phone : String) (ora : Ora) (cal : List Event)
    (s : Session) (svc : Svc) (t : Nat) (h : ora.createFail = true) :
    (idleBook phone ora cal s svc t).2 = cal := by
  unfold idleBook
  by_cases hw : within_opening t
  · by_cases ha : is_time_available cal t (t + svc.mins)
    · simp [hw, ha, h]
    · simp [hw, ha]
  · simp [hw]

/- A failed create call leaves the calendar untouched in the await_time
block. -/
theorem awaitTimeBook_cal_of_fail (phone : String) (ora : Ora) (cal : List Event)
    (s : Session) (svc : Svc) (t : Nat) (h : ora.createFail = true) :
    (awaitTimeBook phone ora cal s svc t).2 = cal := by
  unfold awaitTimeBook
  by_cases hw : within_opening t
  · by_cases ha : is_time_available cal t (t + svc.mins)
    · simp [hw, ha, h]
    · simp [hw, ha]
  · simp [hw]

/- A failed create call leaves the calendar untouched in the offer_slots
block. -/
theorem offerBook_cal_of_fail (phone : String) (ora : Ora) (cal : List Event)
    (s : Session) (t : Nat) (h : ora.createFail = true) :
    (offerBook phone ora cal s t).2 = cal := by
  unfold offerBook
  by_cases hw : within_opening t
  · cases hs : s.service with
    | none =>
      by_cases ha : is_time_available cal t (t + 45)
      · simp [hw, hs, ha, h]
      · simp [hw, hs, ha]
    | some svc =>
      by_cases ha : is_time_available cal t (t + svc.mins)
      · simp [hw, hs, ha, h]
      · simp [hw, hs, ha]
  · simp [hw]

/- A failed update call leaves the calendar untouched in the resched_time
block. -/
theorem reschedBook_cal_of_fail (phone : String) (ora : Ora) (cal : List Event)
    (s : Session) (t : Nat) (h : ora.updateFail = true) :
    (reschedBook phone ora cal s t).2 = cal := by
  unfold reschedBook
  by_cases hw : within_opening t
  · cases hr : s.resched_event with
    | none =>
      by_cases ha : is_time_available cal t (t + 45)
      · simp [hw, hr, ha]
      · simp only [hw, hr, ha, if_true, if_false, Bool.false_eq_true, ite_false, ite_true]
        split <;> rfl
    | some r =>
      by_cases ha : is_time_available cal t (t + r.minutes)
      · simp [hw, hr, ha, h]
      · simp only [hw, hr, ha, Bool.false_eq_true, ite_false, ite_true]
        split <;> rfl
  · simp [hw]

end WB

/-- C8 (confirmed): a reset intent (the global MENU / START / HOME and
BACK commands) always rewrites the session to the fresh initSession, whose
phase is idle and whose draft fields (service, offered_slots,
pending_bookings, resched_event) are all cleared, regardless of the prior
phase and draft and of any collaborator outcome, and it leaves the
calendar untouched; since the result does not depend on the prior state, a
second reset yields the very same state, and a reset never fails. -/
theorem C8_reset_idempotent (phone : String) (now : Nat) (ora : WB.Ora)
    (cal : List CalHelper.Event) (s : WB.Session) :
    WB.handle phone now ora cal s .menu = (WB.initSession, cal)
      ∧ WB.handle phone now ora cal s .back = (WB.initSession, cal)
      ∧ WB.initSession = ⟨WB.Step.idle, none, none, none, none⟩ :=
  ⟨rfl, rfl, rfl⟩

/-- C5 counterexample: a session in phase await_time with a drafted
Haircut receives a valid in-hours time (Monday 10:00) over an empty
calendar, and the create_booking_event collaborator call raises; the
handler answers the failure by resetting the session, so the phase after
the message is idle, not the await_time phase it was in before — the
claim that a collaborator failure leaves phase and draft identical is
false on the code. -/
theorem C5_reset_on_failure_counterexample :
    (WB.handle "u" 0 ⟨false, true, false, false, 1⟩ []
        ⟨.await_time, some (WB.SERVICES.getD 0 default), none, none, none⟩
        (.datetime 600)).1
      = WB.initSession
      ∧ WB.Step.await_time ≠ WB.Step.idle
      ∧ (WB.initSession.step = WB.Step.idle
          ∧ WB.initSession.service = none) := by
  refine ⟨by decide, by decide, by decide, by decide⟩

/-- C5 (corrected): what failures actually preserve.  A failed
list_user_bookings call on the CANCEL or RESCHEDULE command leaves the
session and the calendar exactly as they were (retryable from the same
phase, as the claim says), but a failed create, delete or update call
resets the session to idle with an empty draft instead of preserving the
phase; what those commit failures do preserve is the calendar: when every
commit-type collaborator call fails, no message can change the calendar. -/
theorem C5_failure_effects :
    (∀ (phone : String) (now : Nat) (ora : WB.Ora) (cal : List CalHelper.Event)
        (s : WB.Session), ora.listFail = true →
        WB.handle phone now ora cal s .cancelCmd = (s, cal)
          ∧ WB.handle phone now ora cal s .rescheduleCmd = (s, cal))
      ∧ (∀ (phone : String) (now : Nat) (ora : WB.Ora) (cal : List CalHelper.Event)
          (s : WB.Session) (m : WB.Msg), ora.createFail = true →
          ora.deleteFail = true → ora.updateFail = true →
          (WB.handle phone now ora cal s m).2 = cal) := by
  constructor
  · intro phone now ora cal s hl
    constructor
    · simp [WB.handle, hl]
    · simp only [WB.handle, hl]
      split <;> rfl
  · intro phone now ora cal s m hc hd hu
    cases m with
    | menu => rfl
    | help => rfl
    | greeting => rfl
    | thanks => rfl
    | back => rfl
    | myBookings => rfl
    | cancelCmd =>
      simp only [WB.handle]
      split
      · rfl
      · split <;> rfl
    | rescheduleCmd =>
      simp only [WB.handle]
      split
      · rfl
      · split
        · rfl
        · split <;> rfl
    | number n =>
      simp only [WB.handle]
      cases s.step with
      | cancel_pick =>
        simp only []
        split
        · simp [hd]
        · rfl
      | resched_pick =>
        simp only []
        split <;> rfl
      | resched_time => rfl
      | offer_slots =>
        simp only []
        split
        · split
          · exact WB.offerBook_cal_of_fail _ _ _ _ _ hc
          · rfl
        · rfl
      | await_time =>
        simp only []
        split <;> rfl
      | idle =>
        simp only []
        split <;> rfl
    | datetime t =>
      simp only [WB.handle]
      cases s.step with
      | cancel_pick => rfl
      | resched_pick => rfl
      | resched_time => exact WB.reschedBook_cal_of_fail _ _ _ _ _ hu
      | offer_slots => exact WB.offerBook_cal_of_fail _ _ _ _ _ hc
      | await_time =>
        simp only []
        cases s.service with
        | none => rfl
        | some svc => exact WB.awaitTimeBook_cal_of_fail _ _ _ _ _ _ hc
      | idle => rfl
    | serviceOnly svc =>
      simp only [WB.handle]
      cases s.step with
      | idle => rfl
      | await_time => cases hsv : s.service <;> simp [hsv]
      | offer_slots => rfl
      | cancel_pick => rfl
      | resched_pick => rfl
      | resched_time => rfl
    | serviceWithTime svc t =>
      simp only [WB.handle]
      cases s.step with
      | idle => exact WB.idleBook_cal_of_fail _ _ _ _ _ _ hc
      | await_time => cases hsv : s.service <;> simp [hsv]
      | offer_slots => rfl
      | cancel_pick => rfl
      | resched_pick => rfl
      | resched_time => rfl
    | unparsed =>
      simp only [WB.handle]
      cases s.step with
      | idle => rfl
      | await_time => cases hsv : s.service <;> simp [hsv]
      | offer_slots => rfl
      | cancel_pick => rfl
      | resched_pick => rfl
      | resched_time => rfl

/-- C5 witness: with all commit-type collaborator calls failing, a
concrete message leaves the concrete calendar unchanged. -/
theorem C5_failure_effects_witness :
    (WB.handle "u" 0 ⟨true, true, true, true, 0⟩ [] WB.initSession .menu).2
      = ([] : List CalHelper.Event) :=
  C5_failure_effects.2 "u" 0 ⟨true, true, true, true, 0⟩ [] WB.initSession .menu
    rfl rfl rfl

/-- C6 (confirmed): rescheduling to a time whose window overlaps any
currently stored active booking fails as one unit.  The resched_time
handler re-runs is_time_available on the new window before touching the
calendar; the overlapping booking b makes that check false, so the single
update_booking_time call (the source moves the event in place with one
events().update call and never issues a separate cancel plus create) is
not reached and the calendar after the message is exactly the calendar
before it: the old booking is still stored with its original start and
end, and no new booking exists. -/
theorem C6_reschedule_atomic (phone : String) (now : Nat) (ora : WB.Ora)
    (cal : List CalHelper.Event) (s : WB.Session) (r : WB.Resched) (t : Nat)
    (b : CalHelper.Event)
    (hstep : s.step = .resched_time) (hres : s.resched_event = some r)
    (hb : b ∈ cal) (h1 : b.start < t + r.minutes) (h2 : t < b.stop) :
    (WB.handle phone now ora cal s (.datetime t)).2 = cal := by
  have havail : CalHelper.is_time_available cal t (t + r.minutes) = false := by
    rw [Bool.eq_false_iff]
    intro hall
    have hB := (List.all_eq_true.mp hall) b hb
    simp [h1, h2] at hB
  simp only [WB.handle, hstep]
  unfold WB.reschedBook
  by_cases hw : WB.within_opening t
  · simp only [hw, hres, havail, if_true, Bool.false_eq_true, if_false]
    split <;> rfl
  · simp [hw]

/-- C6 witness: a concrete reschedule of event 5 to Monday 11:30 collides
with the stored booking of event 9 over 11:40 to 12:00 and leaves the
one-event calendar unchanged. -/
theorem C6_reschedule_atomic_witness :
    (WB.handle "u" 0 ⟨false, false, false, false, 1⟩
        [⟨9, "Beard Trim", "q", 700, 720⟩]
        ⟨.resched_time, none, none, none, some ⟨5, "Haircut", 45⟩⟩
        (.datetime 690)).2
      = [⟨9, "Beard Trim", "q", 700, 720⟩] :=
  C6_reschedule_atomic "u" 0 ⟨false, false, false, false, 1⟩
    [⟨9, "Beard Trim", "q", 700, 720⟩]
    ⟨.resched_time, none, none, none, some ⟨5, "Haircut", 45⟩⟩
    ⟨5, "Haircut", 45⟩ 690 ⟨9, "Beard Trim", "q", 700, 720⟩
    rfl rfl (by decide) (by decide) (by decide)

namespace CalHelper

/- Membership in the calendar after a create call. -/
theorem mem_create_booking_event {cal : List Event} {id start_dt minutes : Nat}
    {service_name user_phone : String} {e : Event}
    (h : e ∈ create_booking_event cal id start_dt minutes service_name user_phone) :
    e ∈ cal ∨ e = ⟨id, service_name, user_phone, start_dt, start_dt + minutes⟩ := by
  rcases List.mem_append.1 h with h1 | h2
  · exact Or.inl h1
  · exact Or.inr (List.mem_singleton.1 h2)

/- Membership in the calendar after a delete call. -/
theorem mem_delete_booking_event {cal : List Event} {event_id : Nat} {e : Event}
    (h : e ∈ delete_booking_event cal event_id) : e ∈ cal :=
  List.mem_of_mem_filter h

/- Membership in the calendar after an update call: an event is untouched
or carries exactly the new window. -/
theorem mem_update_booking_time {cal : List Event} {event_id new_start minutes : Nat}
    {e : Event} (h : e ∈ update_booking_time cal event_id new_start minutes) :
    e ∈ cal ∨ (e.start = new_start ∧ e.stop = new_start + minutes) := by
  rcases List.mem_map.1 h with ⟨a, _, heq⟩
  by_cases hid : (a.id == event_id) = true
  · right
    rw [← heq]
    simp [hid]
  · left
    have : e = a := by rw [← heq]; simp [hid]
    rw [this]
    assumption

end CalHelper

namespace WB

open CalHelper

/- New events of the idle direct booking block passed both checks. -/
theorem idleBook_mem (phone : String) (ora : Ora) (cal : List Event)
    (s : Session) (svc : Svc) (t : Nat) :
    ∀ e ∈ (idleBook phone ora cal s svc t).2,
      e ∈ cal ∨ (within_opening e.start = true
        ∧ is_time_available cal e.start e.stop = true) := by
  intro e he
  unfold idleBook at he
  by_cases hw : within_opening t
  · by_cases ha : is_time_available cal t (t + svc.mins)
    · by_cases hf : ora.createFail <;> simp only [hw, ha, hf, if_true, if_false,
        Bool.false_eq_true, ite_true, ite_false] at he
      · exact Or.inl he
      · rcases mem_create_booking_event he with h1 | h2
        · exact Or.inl h1
        · subst h2
          exact Or.inr ⟨hw, ha⟩
    · simp only [hw, ha, Bool.false_eq_true, if_true, if_false, ite_true, ite_false] at he
      exact Or.inl he
  · simp only [hw, Bool.false_eq_true, if_false, ite_false] at he
    exact Or.inl he

/- New events of the await_time block passed both checks. -/
theorem awaitTimeBook_mem (phone : String) (ora : Ora) (cal : List Event)
    (s : Session) (svc : Svc) (t : Nat) :
    ∀ e ∈ (awaitTimeBook phone ora cal s svc t).2,
      e ∈ cal ∨ (within_opening e.start = true
        ∧ is_time_available cal e.start e.stop = true) := by
  intro e he
  unfold awaitTimeBook at he
  by_cases hw : within_opening t
  · by_cases ha : is_time_available cal t (t + svc.mins)
    · by_cases hf : ora.createFail <;> simp only [hw, ha, hf, if_true, if_false,
        Bool.false_eq_true, ite_true, ite_false] at he
      · exact Or.inl he
      · rcases mem_create_booking_event he with h1 | h2
        · exact Or.inl h1
        · subst h2
          exact Or.inr ⟨hw, ha⟩
    · simp only [hw, ha, Bool.false_eq_true, if_true, if_false, ite_true, ite_false] at he
      exact Or.inl he
  · simp only [hw, Bool.false_eq_true, if_false, ite_false] at he
    exact Or.inl he

/- New events of the offer_slots block passed both checks. -/
theorem offerBook_mem (phone : String) (ora : Ora) (cal : List Event)
    (s : Session) (t : Nat) :
    ∀ e ∈ (offerBook phone ora cal s t).2,
      e ∈ cal ∨ (within_opening e.start = true
        ∧ is_time_available cal e.start e.stop = true) := by
  intro e he
  unfold offerBook at he
  by_cases hw : within_opening t
  · cases hsv : s.service with
    | none =>
      by_cases ha : is_time_available cal t (t + 45)
      · by_cases hf : ora.createFail <;> simp only [hw, hsv, ha, hf, if_true, if_false,
          Bool.false_eq_true, ite_true, ite_false] at he
        · exact Or.inl he
        · rcases mem_create_booking_event he with h1 | h2
          · exact Or.inl h1
          · subst h2
            exact Or.inr ⟨hw, ha⟩
      · simp only [hw, hsv, ha, Bool.false_eq_true, ite_true, ite_false] at he
        exact Or.inl he
    | some svc =>
      by_cases ha : is_time_available cal t (t + svc.mins)
      · by_cases hf : ora.createFail <;> simp only [hw, hsv, ha, hf, if_true, if_false,
          Bool.false_eq_true, ite_true, ite_false] at he
        · exact Or.inl he
        · rcases mem_create_booking_event he with h1 | h2
          · exact Or.inl h1
          · subst h2
            exact Or.inr ⟨hw, ha⟩
      · simp only [hw, hsv, ha, Bool.false_eq_true, ite_true, ite_false] at he
        exact Or.inl he
  · simp only [hw, Bool.false_eq_true, ite_false] at he
    exact Or.inl he

/- New windows of the resched_time block passed both checks. -/
theorem reschedBook_mem (phone : String) (ora : Ora) (cal : List Event)
    (s : Session) (t : Nat) :
    ∀ e ∈ (reschedBook phone ora cal s t).2,
      e ∈ cal ∨ (within_opening e.start = true
        ∧ is_time_available cal e.start e.stop = true) := by
  intro e he
  unfold reschedBook at he
  by_cases hw : within_opening t
  · cases hr : s.resched_event with
    | none =>
      by_cases ha : is_time_available cal t (t + 45)
      · simp only [hw, hr, ha, ite_true, ite_false] at he
        exact Or.inl he
      · simp only [hw, hr, ha, Bool.false_eq_true, ite_true, ite_false] at he
        split at he <;> exact Or.inl he
    | some r =>
      by_cases ha : is_time_available cal t (t + r.minutes)
      · by_cases hf : ora.updateFail <;> simp only [hw, hr, ha, hf, if_true, if_false,
          Bool.false_eq_true, ite_true, ite_false] at he
        · exact Or.inl he
        · rcases mem_update_booking_time he with h1 | h2
          · exact Or.inl h1
          · rcases h2 with ⟨hs, hp⟩
            rw [hs, hp]
            exact Or.inr ⟨hw, ha⟩
      · simp only [hw, hr, ha, Bool.false_eq_true, ite_true, ite_false] at he
        split at he <;> exact Or.inl he
  · simp only [hw, Bool.false_eq_true, ite_false] at he
    exact Or.inl he

/- Master lemma: any event stored after one webhook call was already
stored before it, or had its window freshly validated, in that same call,
against the pre-call calendar and the opening hours. -/
theorem handle_calendar_mem (phone : String) (now : Nat) (ora : Ora)
    (cal : List Event) (s : Session) (m : Msg) :
    ∀ e ∈ (handle phone now ora cal s m).2,
      e ∈ cal ∨ (within_opening e.start = true
        ∧ is_time_available cal e.start e.stop = true) := by
  intro e he
  cases m with
  | menu => exact Or.inl he
  | help => exact Or.inl he
  | greeting => exact Or.inl he
  | thanks => exact Or.inl he
  | back => exact Or.inl he
  | myBookings => exact Or.inl he
  | cancelCmd =>
    simp only [handle] at he
    split at he
    · exact Or.inl he
    · split at he <;> exact Or.inl he
  | rescheduleCmd =>
    simp only [handle] at he
    split at he
    · exact Or.inl he
    · split at he
      · exact Or.inl he
      · split at he <;> exact Or.inl he
  | number n =>
    simp only [handle] at he
    split at he
    · split at he
      · split at he
        · exact Or.inl he
        · exact Or.inl (mem_delete_booking_event he)
      · exact Or.inl he
    · split at he <;> exact Or.inl he
    · exact Or.inl he
    · split at he
      · split at he
        · exact offerBook_mem phone ora cal s _ e he
        · exact Or.inl he
      · exact Or.inl he
    · split at he <;> exact Or.inl he
    · split at he <;> exact Or.inl he
  | datetime t =>
    simp only [handle] at he
    split at he
    · exact Or.inl he
    · exact Or.inl he
    · exact reschedBook_mem phone ora cal s t e he
    · exact offerBook_mem phone ora cal s t e he
    · split at he
      · exact Or.inl he
      · exact awaitTimeBook_mem phone ora cal s _ t e he
    · exact Or.inl he
  | serviceOnly svc =>
    simp only [handle] at he
    split at he
    · exact Or.inl he
    · split at he <;> exact Or.inl he
    · exact Or.inl he
  | serviceWithTime svc t =>
    simp only [handle] at he
    split at he
    · exact idleBook_mem phone ora cal s svc t e he
    · split at he <;> exact Or.inl he
    · exact Or.inl he
  | unparsed =>
    simp only [handle] at he
    split at he
    · split at he <;> exact Or.inl he
    · exact Or.inl he

end WB

/-- C3 (confirmed): every commit re-validates against the current state in
the very step that commits.  First conjunct (WhatsApp_bot.py): any event
present after a webhook call either was already stored or its exact
window passed is_time_available against the calendar as it was when the
message arrived — this covers the direct booking, the await_time booking,
the selection of an offered slot by index or by new time, and the
reschedule update, so no path can commit on the strength of an earlier
availability answer alone.  Second conjunct (ai_agent.py): an affirmative
reply to a pending confirmation whose slot has meanwhile been taken
commits nothing — the appointments store is unchanged. -/
theorem C3_commit_revalidates :
    (∀ (phone : String) (now : Nat) (ora : WB.Ora) (cal : List CalHelper.Event)
        (s : WB.Session) (m : WB.Msg) (e : CalHelper.Event),
        e ∈ (WB.handle phone now ora cal s m).2 →
        e ∈ cal ∨ CalHelper.is_time_available cal e.start e.stop = true)
      ∧ (∀ (now : Nat) (st : Agent.AgentState) (phone svc : String) (dt : Nat),
          (Agent.getU st.user_state phone).pending = some (svc, dt) →
          Agent.is_slot_taken st.appointments dt = true →
          (Agent.agentStep now st phone .confirm).appointments = st.appointments) := by
  constructor
  · intro phone now ora cal s m e he
    rcases WB.handle_calendar_mem phone now ora cal s m e he with h1 | h2
    · exact Or.inl h1
    · exact Or.inr h2.2
  · intro now st phone svc dt hp ht
    simp [Agent.agentStep, hp, ht]

/-- C3 witness: a concrete await_time booking over the empty calendar
produces an event whose window passed the fresh availability check. -/
theorem C3_commit_revalidates_witness :
    (⟨1, "Haircut", "u", 600, 645⟩ : CalHelper.Event) ∈ ([] : List CalHelper.Event)
      ∨ CalHelper.is_time_available [] 600 645 = true :=
  C3_commit_revalidates.1 "u" 0 ⟨false, false, false, false, 1⟩ []
    ⟨.await_time, some (WB.SERVICES.getD 0 default), none, none, none⟩
    (.datetime 600) ⟨1, "Haircut", "u", 600, 645⟩ (by decide)

/-- C2 counterexample: the spec scenario itself.  A Monday 17:50 start
(minute 1070 of the Monday-epoch week) with the 45-minute Haircut is NOT
rejected as outside hours: within_opening answers true, the booking is
committed over an empty calendar, and the committed window ends at 18:35
(minute-of-day 1115), past the 18:00 close (CLOSE_TIME 1080).  The
booking.py variant is_time_in_opening likewise accepts the Saturday 17:50
start against a Saturday 18:00 close, since it only compares the start
hour.  The claim that a window whose end passes closing is rejected as
OutsideHours is therefore false on the code. -/
theorem C2_past_closing_counterexample :
    (WB.handle "u" 0 ⟨false, false, false, false, 1⟩ []
        ⟨.await_time, some (WB.SERVICES.getD 0 default), none, none, none⟩
        (.datetime 1070)).2
      = [⟨1, "Haircut", "u", 1070, 1115⟩]
      ∧ WB.within_opening 1070 = true
      ∧ WB.CLOSE_TIME = 1080
      ∧ 1080 < 1115 % 1440
      ∧ BookingPy.is_time_in_opening "sat" "17:50" = true := by
  refine ⟨by decide, by decide, by decide, by decide, by decide⟩

/-- C2 (corrected): only START containment is enforced.  Any event stored
after a webhook call either was already stored or has a start instant
that passed within_opening — an open day with the start time of day in
the open-to-close range; the END of the committed window is never
checked, so a committed appointment may run past closing time (see the
counterexample). -/
theorem C2_start_containment (phone : String) (now : Nat) (ora : WB.Ora)
    (cal : List CalHelper.Event) (s : WB.Session) (m : WB.Msg)
    (e : CalHelper.Event) (he : e ∈ (WB.handle phone now ora cal s m).2) :
    e ∈ cal ∨ WB.within_opening e.start = true := by
  rcases WB.handle_calendar_mem phone now ora cal s m e he with h1 | h2
  · exact Or.inl h1
  · exact Or.inr h2.1

/-- C2 witness: a concrete in-hours booking (Monday 10:10, Skin Fade)
yields an event whose start passes within_opening. -/
theorem C2_start_containment_witness :
    (⟨2, "Skin Fade", "w", 610, 670⟩ : CalHelper.Event) ∈ ([] : List CalHelper.Event)
      ∨ WB.within_opening 610 = true :=
  C2_start_containment "w" 0 ⟨false, false, false, false, 2⟩ []
    ⟨.await_time, some (WB.SERVICES.getD 1 default), none, none, none⟩
    (.datetime 610) ⟨2, "Skin Fade", "w", 610, 670⟩ (by decide)

namespace Agent

/- A false is_slot_taken answer means the key is absent. -/
theorem not_mem_of_not_taken {apps : List (Nat × AgentBooking)} {dt : Nat}
    (h : is_slot_taken apps dt = false) : dt ∉ apps.map Prod.fst := by
  intro hmem
  rcases List.mem_map.1 hmem with ⟨kv, hkv, hfst⟩
  rw [is_slot_taken, Bool.eq_false_iff] at h
  exact h (List.any_eq_true.2 ⟨kv, hkv, by simp [hfst]⟩)

/- The offer tail of the webhook never touches the appointments store. -/
theorem agentOffer_appointments (st : AgentState) (phone : String) (u : UState)
    (svc : String) (dt : Nat) :
    (agentOffer st phone u svc dt).appointments = st.appointments := by
  unfold agentOffer
  split <;> rfl

end Agent

/-- C1 (corrected): the ai_agent.py store prevents double booking only at
the granularity of the exact start minute: in every reachable state the
committed bookings have pairwise distinct slot keys (start minutes),
because a confirm is rejected whenever is_slot_taken already holds the
key.  Overlap of the covered half-open intervals is NOT prevented (see
the counterexample), since is_slot_taken compares keys and ignores
durations. -/
theorem C1_distinct_start_keys (st : Agent.AgentState)
    (h : Agent.AgentReachable st) :
    (st.appointments.map Prod.fst).Nodup := by
  induction h with
  | init => simp
  | step now phone inp hst ih =>
    rename_i stp
    cases inp with
    | confirm =>
      simp only [Agent.agentStep]
      cases hp : (Agent.getU stp.user_state phone).pending with
      | none => simpa [hp] using ih
      | some p =>
        rcases p with ⟨svc, dt⟩
        by_cases ht : Agent.is_slot_taken stp.appointments dt = true
        · simpa [hp, ht] using ih
        · rw [Bool.not_eq_true] at ht
          simp only [hp, ht, Bool.false_eq_true, if_false, List.map_cons]
          exact List.nodup_cons.2 ⟨Agent.not_mem_of_not_taken ht, ih⟩
    | menuService svc => simpa [Agent.agentStep] using ih
    | bookMsg svcO dateO tmO usedWd =>
      simp only [Agent.agentStep]
      cases svcO with
      | none =>
        cases dateO with
        | none =>
          cases tmO with
          | none => simpa using ih
          | some tm =>
            rcases tm with ⟨hh, mm⟩
            cases hc : (Agent.getU stp.user_state phone).chosen_service <;>
              simpa [hc, Agent.agentOffer_appointments] using ih
        | some date =>
          cases tmO with
          | none =>
            cases hc : (Agent.getU stp.user_state phone).chosen_service <;>
              simpa [hc, Agent.agentOffer_appointments] using ih
          | some tm =>
            rcases tm with ⟨hh, mm⟩
            cases hc : (Agent.getU stp.user_state phone).chosen_service <;>
              simpa [hc, Agent.agentOffer_appointments] using ih
      | some svc =>
        cases dateO with
        | none =>
          cases tmO with
          | none => simpa [Agent.agentOffer_appointments] using ih
          | some tm =>
            rcases tm with ⟨hh, mm⟩
            simpa [Agent.agentOffer_appointments] using ih
        | some date =>
          cases tmO with
          | none => simpa [Agent.agentOffer_appointments] using ih
          | some tm =>
            rcases tm with ⟨hh, mm⟩
            simpa [Agent.agentOffer_appointments] using ih
    | other => simpa [Agent.agentStep] using ih

/-- C1 witness: the keys of a concrete reachable state, one step from the
initial store, are pairwise distinct. -/
theorem C1_distinct_start_keys_witness :
    (((Agent.agentStep 0 ⟨[], []⟩ "p" .confirm).appointments).map Prod.fst).Nodup :=
  C1_distinct_start_keys _ (.step 0 "p" .confirm .init)

/-- C1 counterexample: the four-message run books a skin fade at minute
1020 (17:00, 45 minutes per the booking.py catalog) and then a haircut at
minute 1050 (17:30, 30 minutes); both confirms are accepted because the
two slot KEYS differ, yet the two active bookings cover overlapping
half-open intervals 1020 to 1065 and 1050 to 1080 — so the claim that no
two active bookings have overlapping windows, and that an overlapping
confirmed draft is rejected, is false on the code. -/
theorem C1_overlap_counterexample :
    (1020, Agent.AgentBooking.mk "p" "skin fade") ∈ Agent.overlapRun.appointments
      ∧ (1050, Agent.AgentBooking.mk "p" "haircut") ∈ Agent.overlapRun.appointments
      ∧ BookingPy.durationMin "skin fade" = some 45
      ∧ BookingPy.durationMin "haircut" = some 30
      ∧ BookingPy.intervalsOverlap 1020 (1020 + 45) 1050 (1050 + 30) = true
      ∧ Agent.AgentReachable Agent.overlapRun := by
  refine ⟨by decide, by decide, by decide, by decide, by decide, ?_⟩
  exact .step 0 "p" .confirm
    (.step 0 "p" (.bookMsg (some "haircut") (some 0) (some (17, 30)) false)
      (.step 0 "p" .confirm
        (.step 0 "p" (.bookMsg (some "skin fade") (some 0) (some (17, 0)) false)
          .init)))

namespace BookingPy

/- A successful assoc-list lookup returns one of the stored values. -/
theorem lookup_mem_values {α : Type} :
    ∀ (l : List (String × α)) (k : String) (v : α),
      List.lookup k l = some v → v ∈ l.map Prod.snd := by
  intro l
  induction l with
  | nil => intro k v h; simp [List.lookup] at h
  | cons kv rest ih =>
    intro k v h
    rcases kv with ⟨a, b⟩
    rw [List.lookup_cons] at h
    by_cases hk : (k == a) = true
    · simp only [hk] at h
      simp only [List.map_cons, List.mem_cons]
      exact Or.inl (Option.some.inj h).symm
    · rw [Bool.not_eq_true] at hk
      simp only [hk] at h
      simp only [List.map_cons, List.mem_cons]
      exact Or.inr (ih k v h)

/- Every pair the opening-hours table can return opens strictly before it
closes. -/
theorem opening_hours_ordered (d : String) (p : Nat × Nat)
    (h : opening_hours_for d = some p) : p.1 < p.2 := by
  unfold opening_hours_for at h
  dsimp only at h
  rcases hk : (match List.lookup (pyLower d) DAY_MAP with
    | some k => some k
    | none => List.lookup (String.mk ((pyLower d).toList.take 3)) DAY_MAP) with _ | k
  · rw [hk] at h
    simp at h
  · rw [hk] at h
    simp only [] at h
    have hmem := lookup_mem_values open_hours k p h
    simp only [open_hours, List.map_cons, List.map_nil, List.mem_cons,
      List.mem_singleton] at hmem
    rcases hmem with rfl | rfl | rfl | rfl | rfl | rfl | rfl | hmem
    · decide
    · decide
    · decide
    · decide
    · decide
    · decide
    · decide
    · simp at hmem

/- Every element the slot loop emits lies in the half-open range from the
cursor to the stop value. -/
theorem slot_loop_mem (stop step : Nat) :
    ∀ fuel t, ∀ x ∈ slot_loop stop step fuel t, t ≤ x ∧ x < stop := by
  intro fuel
  induction fuel with
  | zero => intro t x hx; simp [slot_loop] at hx
  | succ n ih =>
    intro t x hx
    simp only [slot_loop] at hx
    by_cases hlt : t < stop
    · simp only [hlt, if_true] at hx
      rcases List.mem_cons.1 hx with rfl | hx2
      · exact ⟨le_refl _, hlt⟩
      · rcases ih (t + step) x hx2 with ⟨h1, h2⟩
        exact ⟨le_trans (Nat.le_add_right _ _) h1, h2⟩
    · simp [hlt] at hx

/- The slot loop starts with the cursor itself when it runs at all. -/
theorem slot_loop_cons (stop step fuel t y : Nat) (l : List Nat)
    (h : slot_loop stop step fuel t = y :: l) : y = t := by
  cases fuel with
  | zero => simp [slot_loop] at h
  | succ n =>
    simp only [slot_loop] at h
    by_cases hlt : t < stop
    · simp only [hlt, if_true] at h
      exact (List.cons.injEq _ _ _ _ ▸ h).1.symm
    · simp [hlt] at h

/- Consecutive elements of the slot loop differ by exactly the step. -/
theorem slot_loop_chain (stop step : Nat) :
    ∀ fuel t, List.Chain' (fun a b => b = a + step) (slot_loop stop step fuel t) := by
  intro fuel
  induction fuel with
  | zero => intro t; simp [slot_loop]
  | succ n ih =>
    intro t
    simp only [slot_loop]
    by_cases hlt : t < stop
    · simp only [hlt, if_true]
      rw [List.chain'_cons']
      refine ⟨?_, ih (t + step)⟩
      intro y hy
      cases hres : slot_loop stop step n (t + step) with
      | nil => rw [hres] at hy; simp at hy
      | cons z l =>
        rw [hres] at hy
        simp only [List.head?_cons, Option.mem_def, Option.some.injEq] at hy
        rw [← hy]
        exact slot_loop_cons stop step n (t + step) z l hres
    · simp [hlt]

end BookingPy

/-- C10 (confirmed): shape of booking.py suggest_slots for step_min at
least 1 (the loop diverges only for step_min = 0, which no caller uses).
For a day name the opening-hours table does not know, the result is
empty.  Otherwise the result is the formatting of the underlying minute
list, holds at most 8 entries, begins exactly at the opening hour,
advances by exactly step_min minutes between consecutive entries (with
step_min at least 1 this makes it strictly increasing), and every entry
lies strictly before the closing hour. -/
theorem C10_suggest_slots_shape (day : String) (step_min : Nat)
    (hstep : 1 ≤ step_min) :
    (BookingPy.opening_hours_for day = none → BookingPy.suggest_slots day step_min = [])
      ∧ (BookingPy.suggest_slots day step_min).length ≤ 8
      ∧ BookingPy.suggest_slots day step_min
          = (BookingPy.suggestSlotMinutes day step_min).map BookingPy.minuteToHHMM
      ∧ (∀ sh eh, BookingPy.opening_hours_for day = some (sh, eh) →
          (BookingPy.suggestSlotMinutes day step_min).head? = some (sh * 60)
            ∧ List.Chain' (fun a b => b = a + step_min)
                (BookingPy.suggestSlotMinutes day step_min)
            ∧ ∀ x ∈ BookingPy.suggestSlotMinutes day step_min,
                sh * 60 ≤ x ∧ x < eh * 60) := by
  refine ⟨?_, ?_, rfl, ?_⟩
  · intro hnone
    unfold BookingPy.suggest_slots BookingPy.suggestSlotMinutes
    rw [hnone]
    rfl
  · unfold BookingPy.suggest_slots BookingPy.suggestSlotMinutes
    cases h : BookingPy.opening_hours_for day with
    | none => simp
    | some p =>
      rcases p with ⟨sh, eh⟩
      simp only [List.length_map, List.length_take]
      exact min_le_left _ _
  · intro sh eh hsome
    have hlt : sh < eh := BookingPy.opening_hours_ordered day (sh, eh) hsome
    have hlt60 : sh * 60 < eh * 60 := by omega
    constructor
    · unfold BookingPy.suggestSlotMinutes
      rw [hsome]
      dsimp only
      rcases Nat.exists_eq_succ_of_ne_zero (Nat.pos_iff_ne_zero.1
        (by omega : 0 < eh * 60)) with ⟨n, hn⟩
      rw [hn]
      have hlt2 : sh * 60 < n.succ := hn ▸ hlt60
      simp [BookingPy.slot_loop, hlt2]
    · constructor
      · unfold BookingPy.suggestSlotMinutes
        rw [hsome]
        exact (BookingPy.slot_loop_chain (eh * 60) step_min (eh * 60) (sh * 60)).take 8
      · intro x hx
        unfold BookingPy.suggestSlotMinutes at hx
        rw [hsome] at hx
        exact BookingPy.slot_loop_mem (eh * 60) step_min (eh * 60) (sh * 60) x
          (List.take_subset 8 _ hx)

/-- C10 witness: the shape facts instantiated at Monday with the default
30-minute step: the table knows mon (so the none-clause is vacuous), and
the 8 slots from 10:00 run half-hourly strictly below 19:00. -/
theorem C10_suggest_slots_shape_witness :
    (BookingPy.suggestSlotMinutes "mon" 30).head? = some (10 * 60)
      ∧ List.Chain' (fun a b => b = a + 30) (BookingPy.suggestSlotMinutes "mon" 30)
      ∧ ∀ x ∈ BookingPy.suggestSlotMinutes "mon" 30, 10 * 60 ≤ x ∧ x < 19 * 60 :=
  (C10_suggest_slots_shape "mon" 30 (by decide)).2.2.2 10 19 (by decide)

/-- C9 (confirmed): output validity of booking.py parse_time.  For every
input string the result is None or the zero-padded HH:MM formatting of an
hour at most 23 and a minute at most 59 (every returned value passes the
range guard directly before formatting).  The am/pm adjustment maps 12am
to hour 0 (so "12am" parses to 00:00 and "12:30am" to 00:30), 12pm to
hour 12 (so "12pm" parses to 12:00), and pm hours 1 through 11 to 13
through 23. -/
theorem C9_parse_time_valid :
    (∀ s : String, BookingPy.parse_time s = none
        ∨ ∃ h mi, h ≤ 23 ∧ mi ≤ 59
            ∧ BookingPy.parse_time s = some (BookingPy.fmtHHMM h mi))
      ∧ BookingPy.parse_time "12am" = some (BookingPy.fmtHHMM 0 0)
      ∧ BookingPy.parse_time "12:30am" = some (BookingPy.fmtHHMM 0 30)
      ∧ BookingPy.parse_time "12pm" = some (BookingPy.fmtHHMM 12 0)
      ∧ BookingPy.ampm_hour 12 false = 0
      ∧ BookingPy.ampm_hour 12 true = 12
      ∧ (∀ h, 1 ≤ h → h ≤ 11 → BookingPy.ampm_hour h true = h + 12) := by
  refine ⟨?_, by decide, by decide, by decide, by decide, by decide, ?_⟩
  · intro s
    unfold BookingPy.parse_time
    cases h1 : BookingPy.readHourThen BookingPy.readMinAmPm (BookingPy.normTime s) with
    | some p =>
      by_cases hh : BookingPy.ampm_hour p.1 p.2.2 ≤ 23
      · by_cases hm : p.2.1 ≤ 59
        · right
          refine ⟨BookingPy.ampm_hour p.1 p.2.2, p.2.1, hh, hm, ?_⟩
          simp [h1, hh, hm]
        · left
          simp [h1, hm]
      · left
        simp [h1, hh]
    | none =>
      cases h2 : BookingPy.readHourThen BookingPy.readColonMin (BookingPy.normTime s) with
      | some p =>
        by_cases hh : p.1 ≤ 23
        · by_cases hm : p.2 ≤ 59
          · right
            exact ⟨p.1, p.2, hh, hm, by simp [h1, h2, hh, hm]⟩
          · left
            simp [h1, h2, hm]
        · left
          simp [h1, h2, hh]
      | none =>
        left
        simp [h1, h2]
  · intro h hl hu
    have hne : h ≠ 12 := by omega
    simp [BookingPy.ampm_hour, hne]

/-- C9 witness: the validity disjunction at a concrete input, and the pm
adjustment at hour 5. -/
theorem C9_parse_time_valid_witness :
    (BookingPy.parse_time "17:00" = none
        ∨ ∃ h mi, h ≤ 23 ∧ mi ≤ 59
            ∧ BookingPy.parse_time "17:00" = some (BookingPy.fmtHHMM h mi))
      ∧ BookingPy.ampm_hour 5 true = 5 + 12 :=
  ⟨C9_parse_time_valid.1 "17:00",
   C9_parse_time_valid.2.2.2.2.2.2 5 (by decide) (by decide)⟩
